import Mathlib

/-!
Shallow embedding of the reSIDfp waveform-table builder
(src/builders/residfp-builder/residfp/WaveformCalculator.cpp).

Modelling conventions:
* C `float`/`double` values are modelled by exact rationals (`ℚ`);
  the decimal literals of the source are taken at face value.
* 12-bit machine integers (`unsigned int` accumulators, `short` samples)
  are modelled by `ℕ`; all bit manipulation is on `ℕ`.
* The C array `float distancetable[25]` is modelled as a function `ℕ → ℚ`
  produced by the same sequence of updates the C loop performs.
* The function-pointer field `distance_t distFunc` is modelled as a
  function field `ℚ → ℕ → ℚ`; the three distance functions of the source
  are the only values ever stored in it.
* The mutex-guarded `std::map` cache keyed by the address of the selected
  static config array is modelled by explicit state passing: a `CacheState`
  holds an association list keyed by the identity of the config array
  (one of six static arrays) together with a counter of performed builds.
-/

namespace reSIDfp

/-- Embedding of `static float exponentialDistance(float distance, int i)`:
`return pow(distance, -i);`. -/
def exponentialDistance (distance : ℚ) (i : ℕ) : ℚ :=
  distance ^ (-(i : ℤ))

/-- Embedding of `static float linearDistance(float distance, int i)`:
`return 1.f / (1.f + i * distance);`. -/
def linearDistance (distance : ℚ) (i : ℕ) : ℚ :=
  1 / (1 + (i : ℚ) * distance)

/-- Embedding of `static float quadraticDistance(float distance, int i)`:
`return 1.f / (1.f + (i*i) * distance);`. -/
def quadraticDistance (distance : ℚ) (i : ℕ) : ℚ :=
  1 / (1 + ((i : ℚ) * (i : ℚ)) * distance)

/-- Embedding of the C struct `CombinedWaveformConfig`
(fields in source order). -/
structure CombinedWaveformConfig where
  distFunc : ℚ → ℕ → ℚ
  threshold : ℚ
  topbit : ℚ
  pulsestrength : ℚ
  distance1 : ℚ
  distance2 : ℚ

/-- Embedding of `const CombinedWaveformConfig configAverage[2][5]`. -/
def configAverage : Fin 2 → Fin 5 → CombinedWaveformConfig :=
  ![![⟨exponentialDistance, 0.877322257, 1.11349654, 0, 2.14537621, 9.08618164⟩,
      ⟨linearDistance, 0.941692829, 1, 1.80072665, 0.033124879, 0.232303441⟩,
      ⟨linearDistance, 1.66494179, 1.03760982, 5.62705326, 0.291590303, 0.283631504⟩,
      ⟨linearDistance, 1.09762526, 0.975265801, 1.52196741, 0.151528224, 0.841949463⟩,
      ⟨exponentialDistance, 0.96, 1, 2.5, 1.1, 1.2⟩],
    ![⟨exponentialDistance, 0.841851234, 1.09233654, 0, 1.85262764, 6.22224379⟩,
      ⟨exponentialDistance, 0.929835618, 1, 1.12836814, 1.10453653, 1.48065746⟩,
      ⟨quadraticDistance, 0.911938608, 0.996440411, 1.2278074, 0.000117214302, 0.18948476⟩,
      ⟨exponentialDistance, 0.932317019, 1.03892183, 1.2068342, 0.891974986, 1.42451835⟩,
      ⟨exponentialDistance, 0.95, 1, 1.15, 1, 1.45⟩]]

/-- Embedding of `const CombinedWaveformConfig configWeak[2][5]`. -/
def configWeak : Fin 2 → Fin 5 → CombinedWaveformConfig :=
  ![![⟨exponentialDistance, 0.886832297, 1, 0, 2.14438701, 9.51839447⟩,
      ⟨linearDistance, 1.01262534, 1, 2.46070528, 0.0537485816, 0.0986242667⟩,
      ⟨linearDistance, 2.14896345, 1.0216713, 10.5400085, 0.244498149, 0.126134038⟩,
      ⟨linearDistance, 1.29061747, 0.9754318, 3.15377498, 0.0968349651, 0.318573922⟩,
      ⟨exponentialDistance, 0.96, 1, 2.5, 1.1, 1.2⟩],
    ![⟨exponentialDistance, 0.816124022, 1.31208789, 0, 1.92347884, 2.35027933⟩,
      ⟨exponentialDistance, 0.917997837, 1, 1.01248944, 1.05761552, 1.37529826⟩,
      ⟨quadraticDistance, 0.970038712, 1.00844693, 1.30298805, 0.0097996993, 0.146854922⟩,
      ⟨exponentialDistance, 0.941834152, 1.06401193, 0.991132736, 0.995310068, 1.41105855⟩,
      ⟨exponentialDistance, 0.95, 1, 1.15, 1, 1.45⟩]]

/-- Embedding of `const CombinedWaveformConfig configStrong[2][5]`. -/
def configStrong : Fin 2 → Fin 5 → CombinedWaveformConfig :=
  ![![⟨exponentialDistance, 0.000637792516, 1.56725872, 0, 0.00036806846, 1.51800942⟩,
      ⟨linearDistance, 0.924824238, 1, 1.96749473, 0.0891806409, 0.234794483⟩,
      ⟨linearDistance, 1.2328074, 0.73079139, 3.9719491, 0.00156516861, 0.314677745⟩,
      ⟨linearDistance, 1.08558261, 0.857638359, 1.52781796, 0.152927235, 1.02657032⟩,
      ⟨exponentialDistance, 0.96, 1, 2.5, 1.1, 1.2⟩],
    ![⟨exponentialDistance, 0.89762634, 56.7594185, 0, 7.68995237, 12.0754194⟩,
      ⟨exponentialDistance, 0.867885351, 1, 1.4511894, 1.07057536, 1.43333757⟩,
      ⟨quadraticDistance, 0.89255774, 1.2253896, 1.75615835, 0.0245045591, 0.12982437⟩,
      ⟨linearDistance, 0.91124934, 0.963609755, 0.909965038, 1.07445884, 1.82399702⟩,
      ⟨exponentialDistance, 0.95, 1, 1.15, 1, 1.45⟩]]

/-- Embedding of `static unsigned int triXor(unsigned int val)`:
`return (((val & 0x800) == 0) ? val : (val ^ 0xfff)) << 1;`. -/
def triXor (val : ℕ) : ℕ :=
  (if val &&& 0x800 = 0 then val else val ^^^ 0xfff) <<< 1

/-- Embedding of the basic waveform table `wftable(4, 4096)` filled by the
`WaveformCalculator` constructor: row 0 is `0xfff`, row 1 is `triXor idx`,
row 2 is `idx` (sawtooth), row 3 is `saw & (saw << 1)`. -/
def wftable (wf idx : ℕ) : ℕ :=
  let saw := idx
  let tri := triXor idx
  if wf = 0 then 0xfff
  else if wf = 1 then tri
  else if wf = 2 then saw
  else saw &&& (saw <<< 1)

/-- Embedding of the bit array set up at the top of `calculatePulldown`:
`bit[i] = (accumulator & (1u << i)) != 0 ? 1.f : 0.f;` followed by
`bit[11] *= topbit;`. -/
def bitOf (topbit : ℚ) (accumulator : ℕ) (i : ℕ) : ℚ :=
  let b : ℚ := if accumulator &&& (1 <<< i) ≠ 0 then 1 else 0
  if i = 11 then b * topbit else b

/-- Embedding of the inner `cb` loop of `calculatePulldown` for a fixed
output bit `sb`: the pair accumulates `(avg, n)`. The C index expression
`sb - cb + 12` (int arithmetic) is written `sb + 12 - cb`, which agrees
with it for every `cb < 12` without `ℕ` truncation. -/
def pulldownLoop (distancetable : ℕ → ℚ) (topbit : ℚ) (accumulator : ℕ) (sb : ℕ) : ℚ × ℚ :=
  (List.range 12).foldl
    (fun p cb =>
      if cb = sb then p
      else
        let weight := distancetable (sb + 12 - cb)
        (p.1 + (1 - bitOf topbit accumulator cb) * weight, p.2 + weight))
    (0, 0)

/-- Embedding of `pulldown[sb] = avg / n` with `avg -= pulsestrength`
applied first. -/
def pulldown (distancetable : ℕ → ℚ) (topbit pulsestrength : ℚ)
    (accumulator : ℕ) (sb : ℕ) : ℚ :=
  let p := pulldownLoop distancetable topbit accumulator sb
  (p.1 - pulsestrength) / p.2

/-- Embedding of
`short calculatePulldown(float distancetable[], float topbit, float pulsestrength, float threshold, unsigned int accumulator)`:
the final loop assembles the predicted value with `value |= 1u << i`. -/
def calculatePulldown (distancetable : ℕ → ℚ) (topbit pulsestrength threshold : ℚ)
    (accumulator : ℕ) : ℕ :=
  (List.range 12).foldl
    (fun value i =>
      let bitValue : ℚ :=
        if 0 < bitOf topbit accumulator i then
          1 - pulldown distancetable topbit pulsestrength accumulator i
        else 0
      if threshold < bitValue then value ||| (1 <<< i) else value)
    0

/-- Pointwise update of a table modelled as a function, used to embed the
C array writes `distancetable[j] = v;`. -/
def updFn (f : ℕ → ℚ) (j : ℕ) (v : ℚ) : ℕ → ℚ :=
  fun k => if k = j then v else f k

/-- Embedding of the `distancetable[12 * 2 + 1]` construction inside
`buildPulldownTable`: `distancetable[12] = 1.f;` then for
`i = 12; i > 0; i--` the writes `distancetable[12-i] = distFunc(distance1, i)`
and `distancetable[12+i] = distFunc(distance2, i)`. -/
def buildDistanceTable (cfg : CombinedWaveformConfig) : ℕ → ℚ :=
  (List.range 12).foldl
    (fun dt k =>
      let i := 12 - k
      updFn (updFn dt (12 - i) (cfg.distFunc cfg.distance1 i))
        (12 + i) (cfg.distFunc cfg.distance2 i))
    (updFn (fun _ => 0) 12 1)

/-- Embedding of `ChipModel` (declared in the headers of this repository). -/
inductive ChipModel
  | MOS6581
  | MOS8580
deriving DecidableEq

/-- Modelled from the spec: the `CombinedWaveforms` variance-class
enumeration is declared in a header that is not part of the sources here;
the spec describes three levels (average, weak, strong).  A C++ enum can
carry values outside its enumerator list, so it is modelled as `ℕ` with
the three declared tags below. -/
abbrev CombinedWaveforms := ℕ

/-- Declared tag for the average variance class. -/
def AVERAGE : CombinedWaveforms := 0

/-- Declared tag for the weak variance class. -/
def WEAK : CombinedWaveforms := 1

/-- Declared tag for the strong variance class. -/
def STRONG : CombinedWaveforms := 2

/-- Identity of one of the six static `CombinedWaveformConfig[5]` arrays;
this models the pointer `const CombinedWaveformConfig* cfgArray` that keys
the cache `std::map<const CombinedWaveformConfig*, matrix_t>`. -/
inductive CfgArrayId
  | averageArr (m : Fin 2)
  | weakArr (m : Fin 2)
  | strongArr (m : Fin 2)
deriving DecidableEq

/-- Embedding of `const int modelIdx = model == MOS6581 ? 0 : 1;`. -/
def modelIdx (model : ChipModel) : Fin 2 :=
  if model = ChipModel.MOS6581 then 0 else 1

/-- Embedding of the `switch (cws)` in `buildPulldownTable`; the
`default:` label shares the `AVERAGE` branch. -/
def selectArrayId (model : ChipModel) (cws : CombinedWaveforms) : CfgArrayId :=
  if cws = WEAK then CfgArrayId.weakArr (modelIdx model)
  else if cws = STRONG then CfgArrayId.strongArr (modelIdx model)
  else CfgArrayId.averageArr (modelIdx model)

/-- Contents of the static array a `CfgArrayId` points to. -/
def cfgArrayOf : CfgArrayId → Fin 5 → CombinedWaveformConfig
  | CfgArrayId.averageArr m => configAverage m
  | CfgArrayId.weakArr m => configWeak m
  | CfgArrayId.strongArr m => configStrong m

/-- Embedding of the table-building loop of `buildPulldownTable`:
`pdTable[wav][idx] = calculatePulldown(distancetable, cfg.topbit, cfg.pulsestrength, cfg.threshold, idx);`. -/
def buildPDTable (arr : Fin 5 → CombinedWaveformConfig) : Fin 5 → ℕ → ℕ :=
  fun wav idx =>
    let cfg := arr wav
    calculatePulldown (buildDistanceTable cfg) cfg.topbit cfg.pulsestrength cfg.threshold idx

/-- State of the global `PULLDOWN_CACHE` (a `std::map` keyed by the static
config-array pointer), together with a counter of how many tables have
actually been computed (each `emplace` of a freshly built table counts
one build). -/
structure CacheState where
  entries : List (CfgArrayId × (Fin 5 → ℕ → ℕ))
  builds : ℕ

/-- Cache state at program start: the map is empty. -/
def emptyCache : CacheState := ⟨[], 0⟩

/-- Embedding of `matrix_t* WaveformCalculator::buildPulldownTable(ChipModel model, CombinedWaveforms cws)`:
resolve the config-array identity, return the cached entry on a hit, and
otherwise build the 5×4096 table, insert it and return it.  The returned
reference is modelled as the pair of the cache key (pointer identity) and
the table stored under it. -/
def buildPulldownTable (model : ChipModel) (cws : CombinedWaveforms) (s : CacheState) :
    (CfgArrayId × (Fin 5 → ℕ → ℕ)) × CacheState :=
  let key := selectArrayId model cws
  match s.entries.lookup key with
  | some t => ((key, t), s)
  | none =>
      let t := buildPDTable (cfgArrayOf key)
      ((key, t), ⟨(key, t) :: s.entries, s.builds + 1⟩)

/-- Rendering of the specified pulldown fraction: sum over all `cb ≠ sb`
of `(1 - bit[cb]) * distancetable[sb - cb + 12]`, minus `pulsestrength`,
divided by the sum over all `cb ≠ sb` of `distancetable[sb - cb + 12]`. -/
def specPulldownFrac (distancetable : ℕ → ℚ) (topbit pulsestrength : ℚ)
    (accumulator : ℕ) (sb : ℕ) : ℚ :=
  ((∑ cb in (Finset.range 12).erase sb,
      (1 - bitOf topbit accumulator cb) * distancetable (sb + 12 - cb)) - pulsestrength)
    / (∑ cb in (Finset.range 12).erase sb, distancetable (sb + 12 - cb))

/-- Rendering of the specified output value: output bit `sb` is set iff
the source bit was 1 (`bit[sb] > 0`) and `1 - pulldown[sb] > threshold`,
and the 12 output bits are assembled into the returned integer. -/
def specCombinedValue (distancetable : ℕ → ℚ) (topbit pulsestrength threshold : ℚ)
    (accumulator : ℕ) : ℕ :=
  ∑ sb in Finset.range 12,
    if 0 < bitOf topbit accumulator sb ∧
        threshold < 1 - specPulldownFrac distancetable topbit pulsestrength accumulator sb
    then 2 ^ sb else 0

/-- Predicate stating that a distance-function value is one of the three
functions the source ever stores in the `distFunc` field. -/
def IsStdDist (f : ℚ → ℕ → ℚ) : Prop :=
  f = exponentialDistance ∨ f = linearDistance ∨ f = quadraticDistance

section Bridging

/-- Guarded sums over a finite set equal sums over the set with one
element erased. -/
lemma sum_ite_ne_eq_sum_erase (s : Finset ℕ) (sb : ℕ) (f : ℕ → ℚ) :
    (∑ cb in s, if cb = sb then 0 else f cb) = ∑ cb in s.erase sb, f cb := by
  have h1 : (∑ cb in s.erase sb, if cb = sb then 0 else f cb)
      = ∑ cb in s, if cb = sb then 0 else f cb :=
    Finset.sum_erase s (if_pos rfl)
  rw [← h1]
  exact Finset.sum_congr rfl fun x hx => if_neg (Finset.ne_of_mem_erase hx)

/-- The skip-one-accumulate-pair fold of the inner `cb` loop computes the
two guarded sums. -/
lemma foldl_skip_pair (f g : ℕ → ℚ) (sb : ℕ) :
    ∀ (n : ℕ) (a b : ℚ),
      (List.range n).foldl
        (fun p cb => if cb = sb then p else (p.1 + f cb, p.2 + g cb)) (a, b)
      = (a + ∑ cb in (Finset.range n).erase sb, f cb,
         b + ∑ cb in (Finset.range n).erase sb, g cb) := by
  intro n
  induction n with
  | zero => intro a b; simp
  | succ n ih =>
      intro a b
      rw [List.range_succ, List.foldl_append, ih a b]
      rw [← sum_ite_ne_eq_sum_erase (Finset.range n) sb f,
        ← sum_ite_ne_eq_sum_erase (Finset.range n) sb g,
        ← sum_ite_ne_eq_sum_erase (Finset.range (n + 1)) sb f,
        ← sum_ite_ne_eq_sum_erase (Finset.range (n + 1)) sb g]
      by_cases h : n = sb
      · simp [h, Finset.sum_range_succ, add_assoc]
      · simp only [List.foldl_cons, List.foldl_nil, if_neg h]
        rw [Finset.sum_range_succ, Finset.sum_range_succ, if_neg h, if_neg h]
        simp only [Prod.mk.injEq]
        constructor <;> ring

/-- The pair computed by the inner loop of `calculatePulldown` is the pair
of sums named in the spec. -/
lemma pulldownLoop_eq_sums (dt : ℕ → ℚ) (tb : ℚ) (acc sb : ℕ) :
    pulldownLoop dt tb acc sb
      = (∑ cb in (Finset.range 12).erase sb, (1 - bitOf tb acc cb) * dt (sb + 12 - cb),
         ∑ cb in (Finset.range 12).erase sb, dt (sb + 12 - cb)) := by
  unfold pulldownLoop
  rw [foldl_skip_pair (fun cb => (1 - bitOf tb acc cb) * dt (sb + 12 - cb))
    (fun cb => dt (sb + 12 - cb)) sb 12 0 0]
  simp

/-- The per-bit pulldown of the code equals the specified fraction. -/
lemma pulldown_eq_spec (dt : ℕ → ℚ) (tb ps : ℚ) (acc sb : ℕ) :
    pulldown dt tb ps acc sb = specPulldownFrac dt tb ps acc sb := by
  unfold pulldown specPulldownFrac
  rw [pulldownLoop_eq_sums]

/-- An or-accumulating fold over bit positions below `n` is the sum of the
selected powers of two, and that sum is below `2 ^ n`. -/
lemma foldl_or_eq_sum (P : ℕ → Prop) [DecidablePred P] :
    ∀ n : ℕ,
      ((List.range n).foldl (fun value i => if P i then value ||| (1 <<< i) else value) 0
          = ∑ i in Finset.range n, if P i then 2 ^ i else 0)
      ∧ (∑ i in Finset.range n, if P i then 2 ^ i else 0) < 2 ^ n := by
  intro n
  induction n with
  | zero => simp
  | succ n ih =>
      obtain ⟨ih1, ih2⟩ := ih
      have hsum : (∑ i in Finset.range (n + 1), if P i then 2 ^ i else 0)
          = (∑ i in Finset.range n, if P i then 2 ^ i else 0) + (if P n then 2 ^ n else 0) :=
        Finset.sum_range_succ _ n
      constructor
      · rw [List.range_succ, List.foldl_append, List.foldl_cons, List.foldl_nil, ih1, hsum]
        by_cases h : P n
        · rw [if_pos h, if_pos h, Nat.one_shiftLeft, Nat.lor_comm]
          have h2 := Nat.mul_add_lt_is_or ih2 1
          simp only [Nat.mul_one] at h2
          rw [← h2]
          exact Nat.add_comm _ _
        · rw [if_neg h, if_neg h, Nat.add_zero]
      · rw [hsum, Nat.pow_succ]
        by_cases h : P n
        · rw [if_pos h]; omega
        · rw [if_neg h]; omega

/-- The value-assembly loop of `calculatePulldown` written as a sum of
powers of two over the positions whose predicted bit passes the
threshold test. -/
lemma calculatePulldown_eq_sum (dt : ℕ → ℚ) (tb ps th : ℚ) (acc : ℕ) :
    calculatePulldown dt tb ps th acc
      = ∑ i in Finset.range 12,
          if th < (if 0 < bitOf tb acc i then 1 - pulldown dt tb ps acc i else 0)
          then 2 ^ i else 0 := by
  unfold calculatePulldown
  exact (foldl_or_eq_sum
    (fun i => th < (if 0 < bitOf tb acc i then 1 - pulldown dt tb ps acc i else 0)) 12).1

/-- Upper bound for the assembled value: it always fits in 12 bits. -/
lemma calculatePulldown_lt (dt : ℕ → ℚ) (tb ps th : ℚ) (acc : ℕ) :
    calculatePulldown dt tb ps th acc < 4096 := by
  rw [calculatePulldown_eq_sum]
  exact (foldl_or_eq_sum
    (fun i => th < (if 0 < bitOf tb acc i then 1 - pulldown dt tb ps acc i else 0)) 12).2

/-- Upper bound restated with `≤`. -/
lemma calculatePulldown_le (dt : ℕ → ℚ) (tb ps th : ℚ) (acc : ℕ) :
    calculatePulldown dt tb ps th acc ≤ 4095 := by
  have := calculatePulldown_lt dt tb ps th acc
  omega

/-- Accumulator bits below position 12 are unchanged by reduction modulo
`4096`, hence so is the modelled `bit[]` array. -/
lemma bitOf_mod (tb : ℚ) (acc i : ℕ) (h : i < 12) :
    bitOf tb (acc % 4096) i = bitOf tb acc i := by
  have hand : ∀ m : ℕ, m &&& (1 <<< i) = (m.testBit i).toNat * 2 ^ i := by
    intro m
    rw [Nat.one_shiftLeft]
    exact Nat.and_two_pow m i
  have htb : (acc % 4096).testBit i = acc.testBit i := by
    have h4096 : (4096 : ℕ) = 2 ^ 12 := by norm_num
    rw [h4096, Nat.testBit_mod_two_pow]
    simp [h]
  unfold bitOf
  rw [hand, hand, htb]

/-- The per-bit pulldown fraction only reads accumulator bits below 12. -/
lemma pulldown_mod (dt : ℕ → ℚ) (tb ps : ℚ) (acc sb : ℕ) :
    pulldown dt tb ps (acc % 4096) sb = pulldown dt tb ps acc sb := by
  unfold pulldown
  rw [pulldownLoop_eq_sums, pulldownLoop_eq_sums]
  have hs : ∀ cb ∈ (Finset.range 12).erase sb,
      (1 - bitOf tb (acc % 4096) cb) * dt (sb + 12 - cb)
        = (1 - bitOf tb acc cb) * dt (sb + 12 - cb) := by
    intro cb hcb
    have hcb12 : cb < 12 := Finset.mem_range.mp (Finset.mem_of_mem_erase hcb)
    rw [bitOf_mod tb acc cb hcb12]
  rw [Finset.sum_congr rfl hs]

/-- Layout of the built distance table: 1 at the centre index 12, the
`distance1` weights below it and the `distance2` weights above it. -/
lemma buildDistanceTable_at (cfg : CombinedWaveformConfig) :
    buildDistanceTable cfg 12 = 1 ∧
      ∀ i : ℕ, 1 ≤ i → i ≤ 12 →
        buildDistanceTable cfg (12 - i) = cfg.distFunc cfg.distance1 i ∧
        buildDistanceTable cfg (12 + i) = cfg.distFunc cfg.distance2 i := by
  constructor
  · simp [buildDistanceTable, List.range_succ, updFn]
  · intro i h1 h2
    interval_cases i <;>
      constructor <;>
        simp [buildDistanceTable, List.range_succ, updFn]

/-- Positivity of each of the three distance functions on positive
distances. -/
lemma stdDist_pos {f : ℚ → ℕ → ℚ} (hf : IsStdDist f) {d : ℚ} (hd : 0 < d) (i : ℕ) :
    0 < f d i := by
  rcases hf with h | h | h <;> subst h
  · unfold exponentialDistance; positivity
  · unfold linearDistance; positivity
  · unfold quadraticDistance; positivity

/-- Every entry of the built distance table at the indices the pulldown
loop can touch is positive, for positive distance parameters. -/
lemma buildDistanceTable_pos (cfg : CombinedWaveformConfig)
    (hstd : IsStdDist cfg.distFunc)
    (h1 : 0 < cfg.distance1) (h2 : 0 < cfg.distance2) :
    ∀ j : ℕ, 1 ≤ j → j ≤ 23 → 0 < buildDistanceTable cfg j := by
  intro j hj1 hj23
  obtain ⟨h12, hio⟩ := buildDistanceTable_at cfg
  rcases lt_trichotomy j 12 with hlt | heq | hgt
  · have hi : j = 12 - (12 - j) := by omega
    rw [hi, (hio (12 - j) (by omega) (by omega)).1]
    exact stdDist_pos hstd h1 _
  · rw [heq, h12]; norm_num
  · have hi : j = 12 + (j - 12) := by omega
    rw [hi, (hio (j - 12) (by omega) (by omega)).2]
    exact stdDist_pos hstd h2 _

/-- Each of the 30 compiled-in parameter entries stores one of the three
distance functions, positive distance parameters and a positive
threshold. -/
lemma cfg_entries_props (key : CfgArrayId) (wav : Fin 5) :
    IsStdDist ((cfgArrayOf key wav).distFunc) ∧
      0 < (cfgArrayOf key wav).distance1 ∧
      0 < (cfgArrayOf key wav).distance2 ∧
      0 < (cfgArrayOf key wav).threshold := by
  rcases key with m | m | m <;> fin_cases m <;> fin_cases wav <;>
    refine ⟨?_, ?_, ?_, ?_⟩ <;>
      simp [cfgArrayOf, configAverage, configWeak, configStrong, IsStdDist] <;>
        norm_num

end Bridging

/-- C1: for every 12-bit accumulator value (and any parameters with the
nonnegative threshold every compiled-in entry has), `calculatePulldown`
computes for each output bit `sb` the pulldown fraction
`(Σ_{cb ≠ sb} (1 - bit[cb])·distancetable[sb - cb + 12] - pulsestrength) / Σ_{cb ≠ sb} distancetable[sb - cb + 12]`,
sets output bit `sb` iff the source bit was 1 (`bit[sb] > 0`) and
`1 - pulldown[sb] > threshold`, and assembles the 12 output bits into the
returned integer. -/
theorem C1_calculatePulldown_matches_spec
    (distancetable : ℕ → ℚ) (topbit pulsestrength threshold : ℚ) (accumulator : ℕ)
    (h : 0 ≤ threshold) :
    calculatePulldown distancetable topbit pulsestrength threshold accumulator
      = specCombinedValue distancetable topbit pulsestrength threshold accumulator := by
  rw [calculatePulldown_eq_sum]
  unfold specCombinedValue
  apply Finset.sum_congr rfl
  intro i _
  simp only [pulldown_eq_spec]
  by_cases hb : 0 < bitOf topbit accumulator i
  · rw [if_pos hb]
    by_cases ht : threshold <
        1 - specPulldownFrac distancetable topbit pulsestrength accumulator i
    · rw [if_pos ht, if_pos ⟨hb, ht⟩]
    · rw [if_neg ht, if_neg (fun hc => ht hc.2)]
  · rw [if_neg hb, if_neg (not_lt.mpr h), if_neg (fun hc => hb hc.1)]

/-- Closed instance of `C1_calculatePulldown_matches_spec` discharging its
hypothesis at a concrete input. -/
theorem C1_calculatePulldown_matches_spec_witness :
    (0 : ℚ) ≤ 1 / 2 ∧
      calculatePulldown (fun _ => 1) 1 0 (1 / 2) 5
        = specCombinedValue (fun _ => 1) 1 0 (1 / 2) 5 := by
  refine ⟨by norm_num, ?_⟩
  exact C1_calculatePulldown_matches_spec (fun _ => 1) 1 0 (1 / 2) 5 (by norm_num)

/-- C4: the basic waveform table rows satisfy, for every phase, the
constant-high, triangle-fold, sawtooth-identity and pulse-AND-shift
equations of the spec. -/
theorem C4_basic_waveform_table_rows (phase : ℕ) :
    wftable 0 phase = 4095 ∧
      wftable 1 phase
        = (if phase.testBit 11 then (phase ^^^ 0xfff) <<< 1 else phase <<< 1) ∧
      wftable 2 phase = phase ∧
      wftable 3 phase = wftable 2 phase &&& (wftable 2 phase <<< 1) := by
  have hb : phase &&& 0x800 = 0 ↔ phase.testBit 11 = false := by
    rw [show (0x800 : ℕ) = 2 ^ 11 by norm_num, Nat.and_two_pow]
    cases h : phase.testBit 11 <;> simp
  refine ⟨by simp [wftable], ?_, by simp [wftable], by simp [wftable]⟩
  show triXor phase = _
  unfold triXor
  cases h : phase.testBit 11
  · rw [if_pos (hb.mpr h), if_neg (by simp [h])]
  · rw [if_neg (fun hz => by simpa [h] using hb.mp hz), if_pos (by simp [h])]

/-- C5 counterexample: the golden value claimed for the triangle row at
phase 2048 is 8190, but the table built by the source holds 4094 there. -/
theorem C5_triangle_golden_counterexample : ¬ (wftable 1 2048 = 8190) := by
  decide

/-- C5 amended: triangle at phase 0 is 0, triangle at phase 2048 is 4094
(the triangle row's maximum), sawtooth at phase 100 is 100, and the
constant-high row is 4095 at every phase. -/
theorem C5_basic_table_golden_values :
    wftable 1 0 = 0 ∧ wftable 1 2048 = 4094 ∧ wftable 2 100 = 100 ∧
      ∀ phase : ℕ, wftable 0 phase = 4095 :=
  ⟨by decide, by decide, by decide, fun phase => by simp [wftable]⟩

/-- C10: for any parameters and any accumulator, `calculatePulldown`
returns a nonnegative 12-bit value (so every entry of every row of every
built pulldown table does too), and the result depends only on the low 12
bits of the accumulator argument. -/
theorem C10_calculatePulldown_range_and_low_bits :
    (∀ (distancetable : ℕ → ℚ) (topbit pulsestrength threshold : ℚ) (accumulator : ℕ),
        calculatePulldown distancetable topbit pulsestrength threshold accumulator ≤ 4095 ∧
          calculatePulldown distancetable topbit pulsestrength threshold (accumulator % 4096)
            = calculatePulldown distancetable topbit pulsestrength threshold accumulator) ∧
      ∀ (key : CfgArrayId) (wav : Fin 5) (idx : ℕ),
        buildPDTable (cfgArrayOf key) wav idx ≤ 4095 := by
  refine ⟨fun dt tb ps th acc => ⟨calculatePulldown_le dt tb ps th acc, ?_⟩,
    fun key wav idx => calculatePulldown_le _ _ _ _ _⟩
  rw [calculatePulldown_eq_sum, calculatePulldown_eq_sum]
  apply Finset.sum_congr rfl
  intro i hi
  have hi12 : i < 12 := Finset.mem_range.mp hi
  rw [bitOf_mod tb acc i hi12, pulldown_mod]

/-- C7: for every (model, variance class) and every 12-bit phase, the
pulse+triangle+sawtooth row (combination index 3) of the built pulldown
table and the basic sawtooth row lie in `[0, 4095]`, and the basic
triangle row lies in `[0, 8190]`. -/
theorem C7_range_invariants (model : ChipModel) (cws : CombinedWaveforms) (phase : ℕ)
    (hp : phase < 4096) :
    buildPDTable (cfgArrayOf (selectArrayId model cws)) 3 phase ≤ 4095 ∧
      wftable 2 phase ≤ 4095 ∧
      wftable 1 phase ≤ 8190 := by
  refine ⟨?_, ?_, ?_⟩
  · simp only [buildPDTable]
    exact calculatePulldown_le _ _ _ _ _
  · simp only [wftable]
    norm_num
    omega
  · simp only [wftable, triXor]
    have hx : (phase ^^^ 0xfff) < 4096 := by
      have h1 : phase < 2 ^ 12 := by norm_num; omega
      have h2 : (0xfff : ℕ) < 2 ^ 12 := by norm_num
      have := Nat.xor_lt_two_pow h1 h2
      norm_num at this
      omega
    norm_num
    split <;> omega

/-- Closed instance of `C7_range_invariants` discharging its hypothesis
at phase 0. -/
theorem C7_range_invariants_witness :
    (0 : ℕ) < 4096 ∧
      (buildPDTable (cfgArrayOf (selectArrayId ChipModel.MOS6581 AVERAGE)) 3 0 ≤ 4095 ∧
        wftable 2 0 ≤ 4095 ∧
        wftable 1 0 ≤ 8190) :=
  ⟨by norm_num, C7_range_invariants ChipModel.MOS6581 AVERAGE 0 (by norm_num)⟩

/-- C2: building the same (model, variance class) twice returns the same
reference (same cache key, same stored table) and leaves the cache state
— including the build counter — unchanged: a cache hit does not recompute
and does not mutate existing data. -/
theorem C2_buildPulldownTable_memoized (model : ChipModel) (cws : CombinedWaveforms)
    (s : CacheState) :
    buildPulldownTable model cws (buildPulldownTable model cws s).2
      = buildPulldownTable model cws s := by
  unfold buildPulldownTable
  cases hl : s.entries.lookup (selectArrayId model cws) with
  | some t => simp [hl]
  | none => simp [hl, List.lookup]

/-- C3: for every parameter entry, the 25-entry distance table holds 1 at
index 12, the `distance1` weights at indices `12 - i` and the `distance2`
weights at indices `12 + i` for `i = 1..12`, each run through the entry's
distance function. -/
theorem C3_distance_table_layout (cfg : CombinedWaveformConfig) :
    buildDistanceTable cfg 12 = 1 ∧
      ∀ i : ℕ, 1 ≤ i → i ≤ 12 →
        buildDistanceTable cfg (12 - i) = cfg.distFunc cfg.distance1 i ∧
        buildDistanceTable cfg (12 + i) = cfg.distFunc cfg.distance2 i :=
  buildDistanceTable_at cfg

/-- Closed instance of `C3_distance_table_layout` discharging its inner
hypotheses at `i = 1` on a concrete entry. -/
theorem C3_distance_table_layout_witness :
    (1 : ℕ) ≤ 1 ∧ (1 : ℕ) ≤ 12 ∧
      (buildDistanceTable (configAverage 0 0) 11
          = (configAverage 0 0).distFunc (configAverage 0 0).distance1 1 ∧
        buildDistanceTable (configAverage 0 0) 13
          = (configAverage 0 0).distFunc (configAverage 0 0).distance2 1) :=
  ⟨by norm_num, by norm_num,
    (C3_distance_table_layout (configAverage 0 0)).2 1 (by norm_num) (by norm_num)⟩

/-- C6: for every positive distance and `i` in 1..12, the exponential
distance function returns `distance ^ (-i)` (equivalently `1 / distance ^ i`),
the linear one `1 / (1 + i·distance)` and the quadratic one
`1 / (1 + i²·distance)`. -/
theorem C6_distance_function_formulas (distance : ℚ) (i : ℕ)
    (hd : 0 < distance) (h1 : 1 ≤ i) (h12 : i ≤ 12) :
    exponentialDistance distance i = 1 / distance ^ i ∧
      linearDistance distance i = 1 / (1 + (i : ℚ) * distance) ∧
      quadraticDistance distance i = 1 / (1 + ((i : ℚ) * (i : ℚ)) * distance) := by
  refine ⟨?_, rfl, rfl⟩
  rw [exponentialDistance, zpow_neg, zpow_natCast, one_div]

/-- Closed instance of `C6_distance_function_formulas` discharging its
hypotheses at `distance = 2`, `i = 3`. -/
theorem C6_distance_function_formulas_witness :
    (0 : ℚ) < 2 ∧ (1 : ℕ) ≤ 3 ∧ (3 : ℕ) ≤ 12 ∧
      (exponentialDistance 2 3 = 1 / 2 ^ 3 ∧
        linearDistance 2 3 = 1 / (1 + (3 : ℚ) * 2) ∧
        quadraticDistance 2 3 = 1 / (1 + ((3 : ℚ) * (3 : ℚ)) * 2)) :=
  ⟨by norm_num, by norm_num, by norm_num,
    C6_distance_function_formulas 2 3 (by norm_num) (by norm_num) (by norm_num)⟩

/-- C8: for every one of the 30 compiled-in parameter entries and every
output bit position below 12, the divisor `n` accumulated by the inner
loop of `calculatePulldown` is positive (hence nonzero, and the division
producing the pulldown fraction is by a nonzero exact rational). -/
theorem C8_weight_sum_positive (key : CfgArrayId) (wav : Fin 5) (topbit : ℚ)
    (accumulator sb : ℕ) (hsb : sb < 12) :
    0 < (pulldownLoop (buildDistanceTable (cfgArrayOf key wav)) topbit accumulator sb).2 := by
  obtain ⟨hstd, h1, h2, _⟩ := cfg_entries_props key wav
  rw [pulldownLoop_eq_sums]
  dsimp only
  apply Finset.sum_pos
  · intro cb hcb
    have hcb12 : cb < 12 := Finset.mem_range.mp (Finset.mem_of_mem_erase hcb)
    exact buildDistanceTable_pos _ hstd h1 h2 _ (by omega) (by omega)
  · refine ⟨if sb = 0 then 1 else 0, ?_⟩
    by_cases h : sb = 0 <;> simp [h, Finset.mem_erase] <;> omega

/-- Closed instance of `C8_weight_sum_positive` discharging its
hypothesis at a concrete entry and bit position. -/
theorem C8_weight_sum_positive_witness :
    (0 : ℕ) < 12 ∧
      0 < (pulldownLoop (buildDistanceTable (cfgArrayOf (CfgArrayId.averageArr 0) 0)) 1 0 0).2 :=
  ⟨by norm_num, C8_weight_sum_positive (CfgArrayId.averageArr 0) 0 1 0 0 (by norm_num)⟩

/-- C9: a `CombinedWaveforms` value that is none of `AVERAGE`, `WEAK` or
`STRONG` falls through the `default:` label, selects the `AVERAGE`
parameter set for the given model and yields the same result and state as
an `AVERAGE` request. -/
theorem C9_default_selects_average (model : ChipModel) (cws : CombinedWaveforms)
    (s : CacheState) (h1 : cws ≠ AVERAGE) (h2 : cws ≠ WEAK) (h3 : cws ≠ STRONG) :
    buildPulldownTable model cws s = buildPulldownTable model AVERAGE s := by
  have hsel : selectArrayId model cws = selectArrayId model AVERAGE := by
    unfold selectArrayId
    rw [if_neg h2, if_neg h3, if_neg (by decide : ¬ (AVERAGE = WEAK)),
      if_neg (by decide : ¬ (AVERAGE = STRONG))]
  unfold buildPulldownTable
  rw [hsel]

/-- Closed instance of `C9_default_selects_average` discharging its
hypotheses at the out-of-range tag 7. -/
theorem C9_default_selects_average_witness :
    (7 : CombinedWaveforms) ≠ AVERAGE ∧ (7 : CombinedWaveforms) ≠ WEAK ∧
      (7 : CombinedWaveforms) ≠ STRONG ∧
      buildPulldownTable ChipModel.MOS6581 7 emptyCache
        = buildPulldownTable ChipModel.MOS6581 AVERAGE emptyCache :=
  ⟨by decide, by decide, by decide,
    C9_default_selects_average ChipModel.MOS6581 7 emptyCache
      (by decide) (by decide) (by decide)⟩

end reSIDfp
